import Mathlib

/-!
Shallow embedding of the `sync_pool` object pool (`src/sync_pool/src/pool.rs`)
and proofs about its `Slot` bucket operations, the `SyncPool` probe loops for
`get`/`put`, and the `expand` barrier protocol.

Modelling conventions:
* Rust `[Option<T>; SLOT_CAP]` becomes `List (Option T)` (length `SLOT_CAP` in
  every state the claims touch); `slice[i]` reads become `List.getD`/`List.get?`
  and writes become `List.set`.
* Atomics become plain fields; the embedding is sequential, so a
  compare-exchange succeeds exactly when the expected value is current, and a
  spin loop that can never observe a change either fails after its budget
  (`try_lock` on a held lock) or diverges (`VisitorGuard::register` behind a
  raised barrier, the blocking drain in `expand`).  Divergence and the
  division-by-zero panic of `curr % 0` are modelled by `Option`: the functions
  return `none` exactly when the Rust call would never return normally.
* The reset handle `AtomicPtr<ResetHandle<T>>` becomes `Option (T → T)`
  (`none` = null pointer).
* Rust `Default::default()` is modelled by Lean `default`.  In `Slot::new` the
  assignment `slice[i] = Default::default()` elaborates at type `Option<T>`,
  whose default is `None`; the embedding reproduces that faithfully with
  `(default : Option T) = none`.
-/

def POOL_SIZE : Nat := 8
def SLOT_CAP : Nat := 32
def EXPANSION_CAP : Nat := 512

/-- Configuration flag: bit 0 = expansion allowed. -/
def CONFIG_ALLOW_EXPANSION : Nat := 1

/-- One bucket: 32 optional cells, a fill watermark `len`, and the spin-lock
flag `access`. -/
structure Slot (T : Type) where
  slot : List (Option T)
  len : Nat
  access : Bool

instance {T : Type} : Inhabited (Slot T) := ⟨⟨[], 0, false⟩⟩

namespace Slot

variable {T : Type}

/-- `Slot::new(fill)`.  The placeholder array is zero-initialised (all `none`);
the fill loop then assigns `Default::default()` — which in the source is
inferred at type `Option<T>` and therefore stores `None`, not
`Some(T::default())`.  `len` is nevertheless set to `SLOT_CAP`. -/
def new (fill : Bool) : Slot T :=
  let slice : List (Option T) := List.replicate SLOT_CAP none
  let slice := if fill then slice.map (fun _ => (default : Option T)) else slice
  { slot := slice, len := SLOT_CAP, access := false }

/-- `Slot::try_lock(is_get)`.  Sequentially, the CAS on `access` succeeds iff
the lock is free (a held lock can never be released by the spinning thread
itself, so the bounded spin always times out).  After acquiring, the emptiness
precondition is checked; on violation the lock is released again and the call
fails. -/
def try_lock (s : Slot T) (is_get : Bool) : Bool × Slot T :=
  if s.access then (false, s)
  else if (is_get = true ∧ s.len = 0) ∨ (is_get = false ∧ s.len = SLOT_CAP) then
    (false, s)
  else (true, { s with access := true })

/-- `Slot::unlock`. -/
def unlock (s : Slot T) : Slot T := { s with access := false }

/-- `Slot::checkout`.  Takes the value out of cell `len - 1` and sets
`len` to `len - 1`; if that cell is unexpectedly empty, returns `Err`
(`none` here) without mutating anything.  Callers guarantee `len > 0`. -/
def checkout (s : Slot T) : Option T × Slot T :=
  let i := s.len - 1
  match s.slot.getD i none with
  | some val => (some val, { s with slot := s.slot.set i none, len := i })
  | none => (none, s)

/-- `Slot::release(val, reset)`.  If cell `len` is vacant, runs the reset
handle (when non-null) and stores the value there; note the source then
assigns `self.len = i` where `i = self.len`, i.e. it does NOT increment the
watermark.  If the cell is occupied, the value is silently dropped. -/
def release (s : Slot T) (val : T) (reset : Option (T → T)) : Slot T :=
  let i := s.len
  if (s.slot.getD i none).isNone then
    let v := match reset with
      | some f => f val
      | none => val
    { s with slot := s.slot.set i (some v), len := i }
  else s

end Slot

/-- The pool.  The source keeps `visitor_counter : (AtomicUsize, AtomicBool)`;
the embedding splits the pair into `visitor_count` (first component) and
`barrier` (second component, the write barrier). -/
structure SyncPool (T : Type) where
  slots : List (Slot T)
  curr : Nat
  visitor_count : Nat
  barrier : Bool
  fault_count : Nat
  configure : Nat
  reset_handle : Option (T → T)

namespace SyncPool

variable {T : Type}

/-- `SyncPool::make_pool(size)`. -/
def make_pool (size : Nat) : SyncPool T :=
  { slots := List.replicate size (Slot.new true)
    curr := 0
    visitor_count := 1
    barrier := false
    fault_count := 0
    configure := 0
    reset_handle := none }

/-- `SyncPool::new()` (via `Default`). -/
def new : SyncPool T := make_pool POOL_SIZE

/-- `SyncPool::with_size(size)`. -/
def with_size (size : Nat) : SyncPool T :=
  let pool_size := size / SLOT_CAP
  make_pool (if pool_size < 1 then 1 else pool_size)

/-- `PoolState::expansion_enabled`. -/
def expansion_enabled (p : SyncPool T) : Bool :=
  decide (0 < Nat.land p.configure CONFIG_ALLOW_EXPANSION)

/-- The probe loop of `SyncPool::get`, with the loop iterations counted by
`fuel` (the caller passes `slots.length`, which the ring traversal can never
exceed because the loop stops once `pos` wraps back to `origin`).  On a failed
`try_lock` the loop advances `pos` and continues unless it is back at
`origin`; after a successful lock it checks out, unlocks, and terminates —
returning the value and the `next` index on `Ok`, or falling through
immediately on `Err`. -/
def getLoop : List (Slot T) → Nat → Nat → Nat → Option (T × Nat) × List (Slot T)
  | slots, _, 0, _ => (none, slots)
  | slots, origin, fuel + 1, pos =>
    match slots.get? pos with
    | none => (none, slots)
    | some s =>
      let next := if pos = slots.length - 1 then 0 else pos + 1
      if (s.try_lock true).1 then
        match (s.try_lock true).2.checkout with
        | (some v, s2) => (some (v, next), slots.set pos s2.unlock)
        | (none, s2) => (none, slots.set pos s2.unlock)
      else
        if next = origin then (none, slots)
        else getLoop slots origin fuel next

/-- `SyncPool::get`.  Returns `none` when the call would not return normally
(registration spins forever behind a raised barrier, or `curr % 0` panics on
an empty pool).  On loop success the cursor is stored as the loop's `next`
index; on fall-through a default value is returned and `fault_count` is NOT
touched (the source has no increment). -/
def get [Inhabited T] (p : SyncPool T) : Option (T × SyncPool T) :=
  if p.barrier then none
  else if p.slots.length = 0 then none
  else
    match getLoop p.slots (p.curr % p.slots.length) p.slots.length
        (p.curr % p.slots.length) with
    | (some (v, nxt), slots2) => some (v, { p with slots := slots2, curr := nxt })
    | (none, slots2) => some (default, { p with slots := slots2 })

/-- The probe loop of `SyncPool::put`; like `getLoop` but walking the ring
backwards, and on a successful lock it stores the cursor as `pos`, releases
the value into the bucket and unlocks. -/
def putLoop : List (Slot T) → Nat → Option (T → T) → T → Nat → Nat →
    Option Nat × List (Slot T)
  | slots, _, _, _, 0, _ => (none, slots)
  | slots, origin, reset, v, fuel + 1, pos =>
    match slots.get? pos with
    | none => (none, slots)
    | some s =>
      let next := if pos = 0 then slots.length - 1 else pos - 1
      if (s.try_lock false).1 then
        (some pos, slots.set pos (((s.try_lock false).2.release v reset).unlock))
      else
        if next = origin then (none, slots)
        else putLoop slots origin reset v fuel next

/-- `SyncPool::put`.  On fall-through the value is dropped. -/
def put (p : SyncPool T) (v : T) : Option (SyncPool T) :=
  if p.barrier then none
  else if p.slots.length = 0 then none
  else
    match putLoop p.slots
        (if 0 < p.curr % p.slots.length then p.curr % p.slots.length - 1 else 0)
        p.reset_handle v p.slots.length
        (if 0 < p.curr % p.slots.length then p.curr % p.slots.length - 1 else 0) with
    | (some pos, slots2) => some { p with slots := slots2, curr := pos }
    | (none, slots2) => some { p with slots := slots2 }

/-- `PoolManager::expand(additional, block)`.  Guards: expansion disabled,
`slots.len() > EXPANSION_CAP`, or the barrier CAS fails (barrier already
raised) — each returns `false` leaving the state untouched.  Otherwise the
barrier is raised and the drain loop CASes `visitor_count` from `1` to `0`:
sequentially this succeeds iff the count is `1`; in blocking mode an
undrainable count spins forever (`none`), in non-blocking mode it gives up.
The tail unconditionally stores `visitor_count = 1` and clears the barrier. -/
def expand (p : SyncPool T) (additional : Nat) (block : Bool) :
    Option (Bool × SyncPool T) :=
  if p.expansion_enabled = false then some (false, p)
  else if EXPANSION_CAP < p.slots.length then some (false, p)
  else if p.barrier then some (false, p)
  else if p.visitor_count = 1 then
    some (true, { p with
      slots := p.slots ++ List.replicate additional (Slot.new true)
      fault_count := 0
      visitor_count := 1
      barrier := false })
  else if block then none
  else some (false, { p with visitor_count := 1, barrier := false })

end SyncPool

namespace SyncPool

variable {T : Type}

/-- Spec-side model of the `get` probe loop as the specification describes it
(trial budget `cap / 2`; on a failed lock acquisition OR an empty checkout it
advances `pos`, decrements the budget and continues; it stops only when the
budget reaches `0` or `pos` returns to `origin`).  Used solely to compare the
specified loop with the implemented one. -/
def getClaimLoop : List (Slot T) → Nat → Nat → Nat → Nat → Option T × List (Slot T)
  | slots, _, 0, _, _ => (none, slots)
  | slots, origin, fuel + 1, pos, trials =>
    match slots.get? pos with
    | none => (none, slots)
    | some s =>
      let next := if pos = slots.length - 1 then 0 else pos + 1
      if (s.try_lock true).1 then
        match (s.try_lock true).2.checkout with
        | (some v, s2) => (some v, slots.set pos s2.unlock)
        | (none, s2) =>
          let slots2 := slots.set pos s2.unlock
          if trials - 1 = 0 ∨ next = origin then (none, slots2)
          else getClaimLoop slots2 origin fuel next (trials - 1)
      else
        if trials - 1 = 0 ∨ next = origin then (none, slots)
        else getClaimLoop slots origin fuel next (trials - 1)

/-- Spec-side model of `get` built on `getClaimLoop` (same registration and
fall-through behaviour as the implementation, but with the specified loop). -/
def getClaim [Inhabited T] (p : SyncPool T) : Option T :=
  if p.barrier then none
  else if p.slots.length = 0 then none
  else
    match getClaimLoop p.slots (p.curr % p.slots.length) p.slots.length
        (p.curr % p.slots.length) (p.slots.length / 2) with
    | (some v, _) => some v
    | (none, _) => some default

end SyncPool

/-- Well-formedness of a bucket as far as index safety is concerned: the
storage really has `SLOT_CAP` cells and the watermark stays within `[0, 32]`. -/
abbrev SlotWF {T : Type} (s : Slot T) : Prop :=
  s.slot.length = SLOT_CAP ∧ s.len ≤ SLOT_CAP

/-- Well-formedness of a pool: every bucket is well-formed. -/
abbrev PoolWF {T : Type} (p : SyncPool T) : Prop :=
  ∀ s ∈ p.slots, SlotWF s

/-- The number of objects the pool logically holds: the sum of the bucket
watermarks (spec invariant 3 equates the held count with this sum). -/
def heldCount {T : Type} (p : SyncPool T) : Nat :=
  (p.slots.map Slot.len).sum

/-- A bucket holding no value, with the lock free. -/
def emptySlot : Slot Nat :=
  { slot := List.replicate SLOT_CAP none, len := 0, access := false }

/-- A bucket actually filled with 32 values, with the lock free: the state a
correctly pre-filled fresh bucket was intended to have. -/
def fullSlot : Slot Nat :=
  { slot := List.replicate SLOT_CAP (some 7), len := SLOT_CAP, access := false }

/-- A one-bucket pool whose bucket is genuinely full (satisfies the
conservation invariant). -/
def fullPool : SyncPool Nat :=
  { slots := [fullSlot], curr := 0, visitor_count := 1, barrier := false,
    fault_count := 0, configure := 0, reset_handle := none }

/-- The bucket of `fullPool` after one `get` has taken the value at index 31. -/
def fullSlotAfterGet : Slot Nat :=
  { slot := (List.replicate SLOT_CAP (some (7 : Nat))).set 31 none,
    len := 31, access := false }

/-- The pool state reached from `fullPool` by one `get`. -/
def fullPoolAfterGet : SyncPool Nat :=
  { fullPool with slots := [fullSlotAfterGet], curr := 0 }

/-- A locked bucket with `len = 3`: cells `0..2` occupied, cell `3` vacant. -/
def lockedSlot3 : Slot Nat :=
  { slot := [some 10, some 11, some 12] ++ List.replicate 29 none,
    len := 3, access := true }

/-- A one-bucket pool whose single bucket is empty. -/
def emptyPool : SyncPool Nat :=
  { slots := [emptySlot], curr := 0, visitor_count := 1, barrier := false,
    fault_count := 0, configure := 0, reset_handle := none }

/-- A four-bucket pool: bucket 0 claims `len = 1` but its cell 0 is vacant
(empty-checkout state), bucket 1 holds the value 99 at cell 0, buckets 2 and 3
are empty.  The cursor points at bucket 0. -/
def mixedPool : SyncPool Nat :=
  { slots := [{ emptySlot with len := 1 },
              { slot := some 99 :: List.replicate 31 none, len := 1, access := false },
              emptySlot, emptySlot],
    curr := 0, visitor_count := 1, barrier := false, fault_count := 0,
    configure := 0, reset_handle := none }

/-- A two-bucket pool: bucket 0 holds the value 5 at cell 0 (`len = 1`),
bucket 1 is empty; the cursor points at bucket 0. -/
def twoBucketPool : SyncPool Nat :=
  { slots := [{ slot := some 5 :: List.replicate 31 none, len := 1, access := false },
              emptySlot],
    curr := 0, visitor_count := 1, barrier := false, fault_count := 0,
    configure := 0, reset_handle := none }

/-- A one-bucket pool with expansion enabled and a nonzero fault count. -/
def expandablePool : SyncPool Nat :=
  { fullPool with configure := 1, fault_count := 3 }

/-- A pool with expansion enabled whose barrier is already raised. -/
def barrierRaisedPool : SyncPool Nat :=
  { fullPool with configure := 1, barrier := true }

/-- A pool with expansion enabled and five registered visitors (an
undrainable visitor count in the sequential model). -/
def busyPool : SyncPool Nat :=
  { fullPool with configure := 1, visitor_count := 5 }

/-- The bucket of `fullPool` after a `get` followed by a `put` of the
obtained value. -/
def roundtripSlot : Slot Nat :=
  { slot := ((List.replicate SLOT_CAP (some (7 : Nat))).set 31 none).set 31 (some 7),
    len := 31, access := false }

/-- The pool state reached from `fullPool` by `get` then `put`. -/
def fullPoolRoundtrip : SyncPool Nat :=
  { fullPoolAfterGet with slots := [roundtripSlot], curr := 0 }

/-- The state `busyPool` reaches after a rejected non-blocking `expand`. -/
def busyPoolAfter : SyncPool Nat :=
  { busyPool with visitor_count := 1, barrier := false }

/-- C1: the claim says `release` places `v` at cell `len` and increments
`len`.  The code stores `v` at cell `len` but then assigns `self.len = i`
with `i = self.len`, leaving the watermark unchanged: on a locked bucket with
`len = 3` and cell 3 vacant, releasing 42 stores it at cell 3 yet `len` stays
3 (not 4).  The reset hook, when installed, is applied before the store. -/
theorem release_leaves_len_unchanged :
    (lockedSlot3.release 42 none).len = 3 ∧
    (lockedSlot3.release 42 none).len ≠ lockedSlot3.len + 1 ∧
    (lockedSlot3.release 42 none).slot.getD 3 none = some 42 ∧
    (lockedSlot3.release 99 (some (fun x => x + 1))).slot.getD 3 none = some 100 := by
  decide

/-- C2: the claim says every public operation preserves the per-bucket
conservation invariant (slots `[0, len)` occupied, `[len, 32)` empty).  A pool
built by `with_size 32` already violates it: its bucket reports `len = 32`
while none of its 32 cells is occupied, because `Slot::new`'s fill loop
assigns `Default::default()` at type `Option<T>`, i.e. `None`. -/
theorem fresh_bucket_violates_conservation :
    ((SyncPool.with_size 32 : SyncPool Nat).slots.getD 0 default).len = SLOT_CAP ∧
    ((SyncPool.with_size 32 : SyncPool Nat).slots.getD 0 default).slot.countP
      Option.isSome = 0 := by
  decide

/-- C3: the claim says a `get` in which no probed bucket yields a value
increments `fault_count` by exactly 1.  On a pool whose every bucket is empty
the code returns a default value but leaves `fault_count` at 0: no statement
in `get` ever touches the counter. -/
theorem get_miss_leaves_fault_count :
    (SyncPool.get emptyPool).map (fun r => (r.1, r.2.fault_count)) =
      some (0, 0) ∧
    emptyPool.fault_count = 0 := by
  decide

/-- C4 counterexample: on `mixedPool` (4 buckets, budget `cap / 2 = 2`) the
loop described by the claim survives the empty checkout at bucket 0, probes
bucket 1 and returns its value 99, whereas the implemented loop stops
immediately after the empty checkout and falls through to the default 0. -/
theorem get_trial_budget_counterexample :
    SyncPool.getClaim mixedPool = some 99 ∧
    (SyncPool.get mixedPool).map Prod.fst = some 0 ∧
    (99 : Nat) ≠ 0 := by
  decide

/-- C5: the claim says a `get` followed by `put` of the obtained value leaves
the pool logically unchanged.  Starting from `fullPool` (held count 32), the
round trip ends with held count 31: `put` stores the value at cell `len` but
`release` never increments `len`, stranding the value above the watermark. -/
theorem roundtrip_drops_held_count :
    heldCount fullPool = 32 ∧
    ((SyncPool.get fullPool).bind (fun r => r.2.put r.1)).map heldCount =
      some 31 := by
  decide

/-- C6 counterexample: with the barrier already raised by another expansion,
`expand` returns `false` via the failed barrier CAS and the barrier is still
raised after the call — it is not cleared. -/
theorem expand_false_barrier_counterexample :
    SyncPool.expand barrierRaisedPool 1 false = some (false, barrierRaisedPool) ∧
    barrierRaisedPool.barrier = true :=
  ⟨rfl, rfl⟩

/-- C7: the claim says a successful `expand` appends buckets pre-filled with
32 default-constructed values.  Expanding `expandablePool` by 2 does append
exactly 2 buckets and reset `fault_count` to 0, but each appended bucket has
all 32 cells `None` (its occupied count is 0) despite `len = 32`, because
`Slot::new`'s fill loop assigns `Option<T>`'s default. -/
theorem expand_appends_unfilled_buckets :
    (SyncPool.expand expandablePool 2 true).map (fun r =>
      (r.1, r.2.slots.length, r.2.fault_count,
        (r.2.slots.getD 1 default).len,
        (r.2.slots.getD 1 default).slot.countP Option.isSome,
        (r.2.slots.getD 2 default).slot.countP Option.isSome)) =
    some (true, 3, 0, SLOT_CAP, 0, 0) := by
  decide

/-- C8 counterexample: on `twoBucketPool` the only possible successful
checkout is at bucket 0 (bucket 1 is empty and probing starts at the cursor,
0), yet after the successful `get` the cursor holds 1, not 0: the code stores
`next = pos + 1 (mod cap)`, not `pos`. -/
theorem get_cursor_counterexample :
    (SyncPool.get twoBucketPool).map (fun r => (r.1, r.2.curr)) = some (5, 1) ∧
    (SyncPool.get twoBucketPool).map (fun r => r.2.curr) ≠ some 0 := by
  decide

/-- A successful `try_lock` never alters the storage or the watermark, so it
preserves bucket well-formedness. -/
theorem slotWF_try_lock {T : Type} (g : Bool) {s : Slot T} (h : SlotWF s) :
    SlotWF (s.try_lock g).2 := by
  unfold Slot.try_lock
  split_ifs <;> exact h

/-- Unlocking preserves bucket well-formedness. -/
theorem slotWF_unlock {T : Type} {s : Slot T} (h : SlotWF s) :
    SlotWF s.unlock := h

/-- `checkout` preserves bucket well-formedness: the storage length is kept by
`List.set` and the watermark can only decrease. -/
theorem slotWF_checkout {T : Type} {s : Slot T} (h : SlotWF s) :
    SlotWF (s.checkout).2 := by
  unfold Slot.checkout
  cases hg : s.slot.getD (s.len - 1) none with
  | none => simp only [hg]; exact h
  | some val =>
    simp only [hg]
    exact ⟨by simpa using h.1, le_trans (Nat.sub_le _ _) h.2⟩

/-- `release` preserves bucket well-formedness: the storage length is kept by
`List.set` and the watermark is left unchanged in both branches. -/
theorem slotWF_release {T : Type} (v : T) (r : Option (T → T)) {s : Slot T}
    (h : SlotWF s) : SlotWF (s.release v r) := by
  simp only [Slot.release]
  split_ifs with hv
  · exact ⟨by simpa using h.1, h.2⟩
  · exact h

/-- A successful `try_lock` guarantees the emptiness precondition it checked:
for a getter the bucket is not empty, for a putter it is not full. -/
theorem try_lock_success_len {T : Type} {s : Slot T} {g : Bool}
    (h : (s.try_lock g).1 = true) :
    (g = true → s.len ≠ 0) ∧ (g = false → s.len ≠ SLOT_CAP) := by
  unfold Slot.try_lock at h
  split_ifs at h with h1 h2
  exact ⟨fun hg hlen => h2 (Or.inl ⟨hg, hlen⟩),
         fun hg hlen => h2 (Or.inr ⟨hg, hlen⟩)⟩

/-- The `get` probe loop preserves well-formedness of every bucket. -/
theorem getLoop_WF {T : Type} :
    ∀ (fuel : Nat) (slots : List (Slot T)) (origin pos : Nat),
      (∀ s ∈ slots, SlotWF s) →
      ∀ s ∈ (SyncPool.getLoop slots origin fuel pos).2, SlotWF s := by
  intro fuel
  induction fuel with
  | zero => intro slots origin pos h; exact h
  | succ n ih =>
    intro slots origin pos h
    simp only [SyncPool.getLoop]
    cases hg : slots.get? pos with
    | none => exact h
    | some s =>
      have hs : SlotWF s := h s (List.get?_mem hg)
      by_cases hl : (s.try_lock true).1 = true
      · rcases hc : (s.try_lock true).2.checkout with ⟨co, s2⟩
        have hwf2 : SlotWF s2.unlock := by
          have h2 := slotWF_checkout (slotWF_try_lock true hs)
          rw [hc] at h2
          exact slotWF_unlock h2
        cases co with
        | some v0 =>
          simp only [hl, hc, if_true]
          intro x hx
          rcases List.mem_or_eq_of_mem_set hx with hx' | rfl
          · exact h x hx'
          · exact hwf2
        | none =>
          simp only [hl, hc, if_true]
          intro x hx
          rcases List.mem_or_eq_of_mem_set hx with hx' | rfl
          · exact h x hx'
          · exact hwf2
      · simp only [Bool.not_eq_true] at hl
        simp only [hl]
        by_cases ho : (if pos = slots.length - 1 then 0 else pos + 1) = origin
        · simp only [ho, if_pos rfl]; exact h
        · simp only [if_neg ho]; exact ih slots origin _ h

/-- The `put` probe loop preserves well-formedness of every bucket. -/
theorem putLoop_WF {T : Type} :
    ∀ (fuel : Nat) (slots : List (Slot T)) (origin : Nat)
      (reset : Option (T → T)) (v : T) (pos : Nat),
      (∀ s ∈ slots, SlotWF s) →
      ∀ s ∈ (SyncPool.putLoop slots origin reset v fuel pos).2, SlotWF s := by
  intro fuel
  induction fuel with
  | zero => intro slots origin reset v pos h; exact h
  | succ n ih =>
    intro slots origin reset v pos h
    simp only [SyncPool.putLoop]
    cases hg : slots.get? pos with
    | none => exact h
    | some s =>
      have hs : SlotWF s := h s (List.get?_mem hg)
      by_cases hl : (s.try_lock false).1 = true
      · simp only [hl, if_true]
        intro x hx
        rcases List.mem_or_eq_of_mem_set hx with hx' | rfl
        · exact h x hx'
        · exact slotWF_unlock (slotWF_release v reset (slotWF_try_lock false hs))
      · simp only [Bool.not_eq_true] at hl
        simp only [hl]
        by_cases ho : (if pos = 0 then slots.length - 1 else pos - 1) = origin
        · simp only [ho, if_pos rfl]; exact h
        · simp only [if_neg ho]; exact ih slots origin reset v _ h

/-- C9: all slot-array indexing in `get` and `put` is in bounds.  `checkout`
is reached only behind a successful `try_lock(true)`, which guarantees
`len > 0`, so its access at `len - 1` cannot underflow and lies inside the
32-cell storage; `release` is reached only behind a successful
`try_lock(false)`, which guarantees `len < 32`, so its access at `len` lies
inside the storage; and `get`/`put` keep every bucket's `len` within
`[0, 32]` (well-formedness is preserved). -/
theorem get_put_index_safety (T : Type) [Inhabited T] :
    (∀ s : Slot T, (s.try_lock true).1 = true → 0 < s.len) ∧
    (∀ s : Slot T, SlotWF s → (s.try_lock true).1 = true →
      s.len - 1 < s.slot.length) ∧
    (∀ s : Slot T, SlotWF s → (s.try_lock false).1 = true →
      s.len < s.slot.length) ∧
    (∀ (p : SyncPool T) (v : T) (p' : SyncPool T),
      PoolWF p → p.get = some (v, p') → PoolWF p') ∧
    (∀ (p : SyncPool T) (v : T) (p' : SyncPool T),
      PoolWF p → p.put v = some p' → PoolWF p') := by
  refine ⟨?_, ?_, ?_, ?_, ?_⟩
  · intro s h
    exact Nat.pos_of_ne_zero ((try_lock_success_len h).1 rfl)
  · intro s hWF h
    have h0 : 0 < s.len := Nat.pos_of_ne_zero ((try_lock_success_len h).1 rfl)
    have := hWF.2
    omega
  · intro s hWF h
    have hne : s.len ≠ SLOT_CAP := (try_lock_success_len h).2 rfl
    rw [hWF.1]
    exact lt_of_le_of_ne hWF.2 hne
  · intro p v p' hWF hget
    unfold SyncPool.get at hget
    split_ifs at hget with hb hz
    rcases hloop : SyncPool.getLoop p.slots (p.curr % p.slots.length)
        p.slots.length (p.curr % p.slots.length) with ⟨res, slots2⟩
    rw [hloop] at hget
    cases res with
    | none =>
      simp only [Option.some.injEq, Prod.mk.injEq] at hget
      obtain ⟨-, rfl⟩ := hget
      intro x hx
      have := getLoop_WF p.slots.length p.slots (p.curr % p.slots.length)
        (p.curr % p.slots.length) hWF
      rw [hloop] at this
      exact this x hx
    | some pr =>
      rcases pr with ⟨v0, nxt⟩
      simp only [Option.some.injEq, Prod.mk.injEq] at hget
      obtain ⟨-, rfl⟩ := hget
      intro x hx
      have := getLoop_WF p.slots.length p.slots (p.curr % p.slots.length)
        (p.curr % p.slots.length) hWF
      rw [hloop] at this
      exact this x hx
  · intro p v p' hWF hput
    unfold SyncPool.put at hput
    by_cases hb : p.barrier = true
    · rw [if_pos hb] at hput; exact absurd hput (by simp)
    · rw [if_neg hb] at hput
      by_cases hz : p.slots.length = 0
      · rw [if_pos hz] at hput; exact absurd hput (by simp)
      · rw [if_neg hz] at hput
        generalize ho :
          (if 0 < p.curr % p.slots.length then p.curr % p.slots.length - 1 else 0)
            = org at hput
        rcases hloop : SyncPool.putLoop p.slots org p.reset_handle v
            p.slots.length org with ⟨res, slots2⟩
        rw [hloop] at hput
        have hall := putLoop_WF p.slots.length p.slots org p.reset_handle v org hWF
        rw [hloop] at hall
        cases res with
        | none =>
          simp only [Option.some.injEq] at hput
          subst hput
          intro x hx
          exact hall x hx
        | some pos =>
          simp only [Option.some.injEq] at hput
          subst hput
          intro x hx
          exact hall x hx

/-- Applies the index-safety theorem at concrete pools: `fullPool` is
well-formed, and so are the pools reached by a `get` and by the subsequent
`put`. -/
theorem get_put_index_safety_witness :
    PoolWF fullPool ∧ PoolWF fullPoolAfterGet ∧ PoolWF fullPoolRoundtrip :=
  ⟨by decide,
   (get_put_index_safety Nat).2.2.2.1 fullPool 7 fullPoolAfterGet (by decide) rfl,
   (get_put_index_safety Nat).2.2.2.2 fullPoolAfterGet 7 fullPoolRoundtrip
     (by decide) rfl⟩

/-- C10: every `expand` call that passes the initial guards (expansion
enabled, capacity not exceeded, barrier successfully raised because it was
clear) stores the idle sentinel 1 into `visitor_count` and clears the barrier
before returning — also on the non-blocking timeout path, where whatever
visitor count was current is overwritten with 1. -/
theorem expand_restores_visitor_state {T : Type} :
    ∀ (p : SyncPool T) (additional : Nat) (block r : Bool) (p' : SyncPool T),
      SyncPool.expand p additional block = some (r, p') →
      p.expansion_enabled = true → p.slots.length ≤ EXPANSION_CAP →
      p.barrier = false →
      p'.visitor_count = 1 ∧ p'.barrier = false := by
  intro p additional block r p' h he hcap hb
  unfold SyncPool.expand at h
  rw [if_neg (by simp [he]), if_neg (Nat.not_lt.mpr hcap),
      if_neg (by simp [hb])] at h
  split_ifs at h with h1 h2
  · simp only [Option.some.injEq, Prod.mk.injEq] at h
    obtain ⟨-, rfl⟩ := h
    exact ⟨rfl, rfl⟩
  · simp only [Option.some.injEq, Prod.mk.injEq] at h
    obtain ⟨-, rfl⟩ := h
    exact ⟨rfl, rfl⟩

/-- Applies the visitor-state theorem to `busyPool`, whose visitor count 5
cannot drain: the rejected non-blocking `expand` still overwrites the count
with 1 and clears the barrier. -/
theorem expand_restores_visitor_state_witness :
    busyPoolAfter.visitor_count = 1 ∧ busyPoolAfter.barrier = false :=
  expand_restores_visitor_state busyPool 1 false false busyPoolAfter rfl rfl
    (by decide) rfl

/-- C6 (amended): whenever `expand` returns `false`, the buckets sequence is
unchanged, and when the barrier was clear at entry (so the call itself raised
it, or never touched it) the barrier is clear again after the call; a
rejection caused by an already-raised barrier leaves that barrier set. -/
theorem expand_false_preserves_slots {T : Type} :
    ∀ (p : SyncPool T) (additional : Nat) (block : Bool) (p' : SyncPool T),
      SyncPool.expand p additional block = some (false, p') →
      p'.slots = p.slots ∧ (p.barrier = false → p'.barrier = false) := by
  intro p additional block p' h
  unfold SyncPool.expand at h
  split_ifs at h with h1 h2 h3 h4 h5
  · simp only [Option.some.injEq, Prod.mk.injEq] at h
    obtain ⟨-, rfl⟩ := h
    exact ⟨rfl, fun hb => hb⟩
  · simp only [Option.some.injEq, Prod.mk.injEq] at h
    obtain ⟨-, rfl⟩ := h
    exact ⟨rfl, fun hb => hb⟩
  · simp only [Option.some.injEq, Prod.mk.injEq] at h
    obtain ⟨-, rfl⟩ := h
    exact ⟨rfl, fun hb => absurd h3 (by simp [hb])⟩
  · simp only [Option.some.injEq, Prod.mk.injEq] at h
    obtain ⟨hcontra, -⟩ := h
    exact absurd hcontra (by simp)
  · simp only [Option.some.injEq, Prod.mk.injEq] at h
    obtain ⟨-, rfl⟩ := h
    exact ⟨rfl, fun _ => rfl⟩

/-- Applies the rejected-expand theorem to the non-blocking timeout on
`busyPool`: the buckets are unchanged and the barrier ends clear. -/
theorem expand_false_preserves_slots_witness :
    busyPoolAfter.slots = busyPool.slots ∧
      (busyPool.barrier = false → busyPoolAfter.barrier = false) :=
  expand_false_preserves_slots busyPool 1 false busyPoolAfter rfl

/-- C4 (amended): the implemented probe loop of `get` uses no trial budget.
On a failed lock acquisition it advances `pos` to the next ring index and
continues, stopping exactly when `pos` returns to `origin`; on an empty
checkout (lock acquired but the top cell vacant) it stops immediately; and
when the loop yields nothing, `get` falls through to a default value. -/
theorem get_probe_loop_behaviour (T : Type) [Inhabited T] :
    (∀ (slots : List (Slot T)) (origin fuel pos : Nat) (s s2 : Slot T),
        slots.get? pos = some s → (s.try_lock true).1 = true →
        (s.try_lock true).2.checkout = (none, s2) →
        SyncPool.getLoop slots origin (fuel + 1) pos =
          (none, slots.set pos s2.unlock)) ∧
    (∀ (slots : List (Slot T)) (origin fuel pos : Nat) (s : Slot T),
        slots.get? pos = some s → (s.try_lock true).1 = false →
        SyncPool.getLoop slots origin (fuel + 1) pos =
          (if (if pos = slots.length - 1 then 0 else pos + 1) = origin
           then (none, slots)
           else SyncPool.getLoop slots origin fuel
             (if pos = slots.length - 1 then 0 else pos + 1))) ∧
    (∀ (p : SyncPool T) (slots2 : List (Slot T)),
        p.barrier = false → 0 < p.slots.length →
        SyncPool.getLoop p.slots (p.curr % p.slots.length) p.slots.length
          (p.curr % p.slots.length) = (none, slots2) →
        p.get = some (default, { p with slots := slots2 })) := by
  refine ⟨?_, ?_, ?_⟩
  · intro slots origin fuel pos s s2 hg hl hc
    simp only [SyncPool.getLoop, hg, hl, hc, if_true]
  · intro slots origin fuel pos s hg hl
    simp only [SyncPool.getLoop, hg, hl]
    simp
  · intro p slots2 hb hz hloop
    unfold SyncPool.get
    rw [if_neg (by simp [hb]), if_neg (Nat.pos_iff_ne_zero.mp hz), hloop]

/-- Applies the probe-loop theorem at `mixedPool`: the empty checkout at
bucket 0 terminates the loop at once, without probing bucket 1. -/
theorem get_probe_loop_behaviour_witness :
    SyncPool.getLoop mixedPool.slots 0 4 0 =
      (none, mixedPool.slots.set 0
        ({ slot := List.replicate SLOT_CAP none, len := 1, access := true } :
          Slot Nat).unlock) :=
  (get_probe_loop_behaviour Nat).1 mixedPool.slots 0 3 0
    { slot := List.replicate SLOT_CAP none, len := 1, access := false }
    { slot := List.replicate SLOT_CAP none, len := 1, access := true }
    rfl rfl rfl

/-- C8 (amended): whenever the probe loop of `get` checks out a value from
the bucket at index `j`, the index it hands back for the cursor store — and
which `get` then writes into `curr` before returning the value — is the ring
successor `(j + 1) mod cap`, not `j` itself. -/
theorem get_stores_successor_cursor (T : Type) [Inhabited T] :
    (∀ (fuel : Nat) (slots slots2 : List (Slot T)) (origin pos : Nat)
        (v : T) (nxt : Nat),
        SyncPool.getLoop slots origin fuel pos = (some (v, nxt), slots2) →
        ∃ (j : Nat) (s : Slot T), slots.get? j = some s ∧
          (s.try_lock true).1 = true ∧
          ((s.try_lock true).2.checkout).1 = some v ∧
          nxt = if j = slots.length - 1 then 0 else j + 1) ∧
    (∀ (p : SyncPool T) (slots2 : List (Slot T)) (v : T) (nxt : Nat),
        p.barrier = false → 0 < p.slots.length →
        SyncPool.getLoop p.slots (p.curr % p.slots.length) p.slots.length
          (p.curr % p.slots.length) = (some (v, nxt), slots2) →
        p.get = some (v, { p with slots := slots2, curr := nxt })) := by
  constructor
  · intro fuel
    induction fuel with
    | zero =>
      intro slots slots2 origin pos v nxt h
      simp [SyncPool.getLoop] at h
    | succ n ih =>
      intro slots slots2 origin pos v nxt h
      simp only [SyncPool.getLoop] at h
      split at h
      · simp at h
      · rename_i s hg
        split at h
        · rename_i hl
          split at h
          · rename_i v0 s2 hc
            simp only [Option.some.injEq, Prod.mk.injEq] at h
            obtain ⟨⟨rfl, rfl⟩, -⟩ := h
            exact ⟨pos, s, hg, hl, by rw [hc], rfl⟩
          · rename_i s2 hc
            simp at h
        · rename_i hl
          by_cases ho : (if pos = slots.length - 1 then 0 else pos + 1) = origin
          · rw [if_pos ho] at h; simp at h
          · rw [if_neg ho] at h
            exact ih slots slots2 origin _ v nxt h
  · intro p slots2 v nxt hb hz hloop
    unfold SyncPool.get
    rw [if_neg (by simp [hb]), if_neg (Nat.pos_iff_ne_zero.mp hz), hloop]

/-- Applies the cursor theorem at `fullPool` (one bucket, index 0): the
successful `get` checks out at bucket 0 and stores the wrapped successor 0. -/
theorem get_stores_successor_cursor_witness :
    SyncPool.get fullPool = some (7, fullPoolAfterGet) :=
  (get_stores_successor_cursor Nat).2 fullPool [fullSlotAfterGet] 7 0 rfl
    (by decide) rfl
